import Mathlib

/-!
Verification of the `iban` Go package (LaurensKubat/go-iban, file iban.go).

Shallow embedding conventions:
* Go strings are modelled as `List Char`.  Every string that survives the
  character-class gate of `NewIBAN` is plain ASCII, where Go's byte slicing
  agrees with `List Char` indexing.
* A Go `error` value is modelled as `Option String`: `none` is the nil error
  and `some msg` is a non-nil error carrying message `msg`.  `errors.New(s)`
  is a non-nil error for every `s`, including the empty string, and is
  therefore modelled as `some s`.
* `NewIBAN` returns the pair `(*IBAN, error)`, modelled as
  `Option IBAN × Option String` so that the all-or-nothing shape of the
  result is a theorem and not an artefact of the return type.
* `math/big.Int.SetString(s, 10)` accepts an optional sign followed by a
  non-empty run of decimal digits; `big.Int.Mod` with positive modulus is the
  Euclidean remainder, which coincides with `Int.emod` for a positive
  modulus.
* The Go code slices `i.code[4:]` and `i.code[:4]`; Go would panic when the
  code has fewer than 4 bytes.  All uses in this development carry the
  hypothesis `4 ≤ code.length` (guaranteed inside `NewIBAN` by the header
  match), under which `List.drop`/`List.take` agree with Go slicing.
-/

set_option maxHeartbeats 1000000

namespace Iban

/-- Character is an ASCII decimal digit, the class `[0-9]` (and regexp `\d`);
code points 48–57.  All character classes are stated on code points, exactly
as regexp ranges are. -/
def isDig (c : Char) : Bool := 48 ≤ c.toNat && c.toNat ≤ 57

/-- Character class `[A-Z]`, code points 65–90. -/
def isUpp (c : Char) : Bool := 65 ≤ c.toNat && c.toNat ≤ 90

/-- Character class `[a-z]`, code points 97–122. -/
def isLow (c : Char) : Bool := 97 ≤ c.toNat && c.toNat ≤ 122

/-- Character class `[0-9A-Z]`, the gate applied by `NewIBAN` right after
normalization (regexp `^[0-9A-Z]*$` accepts exactly the strings all of whose
characters lie in this class). -/
def isUpperAlnum (c : Char) : Bool := isDig c || isUpp c

/-- Fueled decimal rendering: one unit of fuel per digit position.  The fuel
is a recursion bound only; `natDigits` below always supplies enough (`n / 10`
loses at least one decimal digit per step), so the `0`-fuel branch is never
reached from `natDigits`. -/
def natDigitsAux (fuel : Nat) (n : Nat) : List Char :=
  match fuel with
  | 0 => []
  | f + 1 =>
    if n < 10 then [Char.ofNat (48 + n)]
    else natDigitsAux f (n / 10) ++ [Char.ofNat (48 + n % 10)]

/-- Decimal digit characters of `n`, most significant first, as produced by
`strconv.Itoa` on a non-negative int (`"0"` for `0`). -/
def natDigits (n : Nat) : List Char :=
  natDigitsAux (n + 1) n

/-- Value of a decimal digit string (most significant first). -/
def digitStrVal (s : List Char) : Nat :=
  s.foldl (fun a c => 10 * a + (c.toNat - 48)) 0

/-- Accumulating decimal parser: consumes digits, fails on the first
non-digit character. -/
def parseDigits (acc : Nat) : List Char → Option Nat
  | [] => some acc
  | c :: cs => if isDig c then parseDigits (10 * acc + (c.toNat - 48)) cs else none

/-- Parse a non-empty all-digit string as a `Nat`; `none` on the empty string
or on any non-digit character. -/
def digitsToNat (s : List Char) : Option Nat :=
  match s with
  | [] => none
  | _ :: _ => parseDigits 0 s

/-- Model of `new(big.Int).SetString(s, 10)` (and of the accepted syntax of
`strconv.Atoi`): an optional leading sign followed by a non-empty run of
decimal digits; `none` models the failure return. -/
def setStringDec (s : List Char) : Option Int :=
  match s with
  | [] => none
  | c :: cs =>
    if c = '+' then (digitsToNat cs).map (fun n => (n : Int))
    else if c = '-' then (digitsToNat cs).map (fun n => -(n : Int))
    else (digitsToNat (c :: cs)).map (fun n => (n : Int))

/-- `CountrySettings` struct of iban.go: length of the IBAN, format of the
bban part, SEPA membership. -/
structure CountrySettings where
  Length : Nat
  Format : List Char
  Sepa : Bool
deriving Repr, DecidableEq

/-- `IBAN` struct of iban.go.  The Go field `countrySettings` is a pointer to
a `CountrySettings` value freshly copied out of the table; it is embedded by
value. -/
structure IBAN where
  code : List Char
  printCode : List Char
  countryCode : List Char
  checkDigits : List Char
  countrySettings : CountrySettings
  bban : List Char
deriving Repr, DecidableEq

/-- The static country table `countries` of iban.go, entry for entry. -/
def countries : List (List Char × CountrySettings) :=
  [ ("AD".toList, ⟨24, "F04F04A12".toList, false⟩)
  , ("AE".toList, ⟨23, "F03F16".toList, false⟩)
  , ("AL".toList, ⟨28, "F08A16".toList, false⟩)
  , ("AT".toList, ⟨20, "F05F11".toList, true⟩)
  , ("AZ".toList, ⟨28, "U04A20".toList, false⟩)
  , ("BA".toList, ⟨20, "F03F03F08F02".toList, false⟩)
  , ("BE".toList, ⟨16, "F03F07F02".toList, true⟩)
  , ("BG".toList, ⟨22, "U04F04F02A08".toList, true⟩)
  , ("BH".toList, ⟨22, "U04A14".toList, false⟩)
  , ("BR".toList, ⟨29, "F08F05F10U01A01".toList, false⟩)
  , ("CH".toList, ⟨21, "F05A12".toList, true⟩)
  , ("CR".toList, ⟨21, "F03F14".toList, false⟩)
  , ("CY".toList, ⟨28, "F03F05A16".toList, false⟩)
  , ("CZ".toList, ⟨24, "F04F06F10".toList, true⟩)
  , ("DE".toList, ⟨22, "F08F10".toList, true⟩)
  , ("DK".toList, ⟨18, "F04F09F01".toList, true⟩)
  , ("DO".toList, ⟨28, "U04F20".toList, false⟩)
  , ("EE".toList, ⟨20, "F02F02F11F01".toList, true⟩)
  , ("ES".toList, ⟨24, "F04F04F01F01F10".toList, true⟩)
  , ("FI".toList, ⟨18, "F06F07F01".toList, true⟩)
  , ("FO".toList, ⟨18, "F04F09F01".toList, true⟩)
  , ("FR".toList, ⟨27, "F05F05A11F02".toList, true⟩)
  , ("GB".toList, ⟨22, "U04F06F08".toList, true⟩)
  , ("GE".toList, ⟨22, "U02F16".toList, false⟩)
  , ("GI".toList, ⟨23, "U04A15".toList, true⟩)
  , ("GL".toList, ⟨18, "F04F09F01".toList, true⟩)
  , ("GR".toList, ⟨27, "F03F04A16".toList, true⟩)
  , ("GT".toList, ⟨28, "A04A20".toList, false⟩)
  , ("HR".toList, ⟨21, "F07F10".toList, false⟩)
  , ("HU".toList, ⟨28, "F03F04F01F15F01".toList, true⟩)
  , ("IE".toList, ⟨22, "U04F06F08".toList, true⟩)
  , ("IL".toList, ⟨23, "F03F03F13".toList, false⟩)
  , ("IS".toList, ⟨26, "F04F02F06F10".toList, true⟩)
  , ("IT".toList, ⟨27, "U01F05F05A12".toList, true⟩)
  , ("JO".toList, ⟨30, "U04F04A18".toList, false⟩)
  , ("KW".toList, ⟨30, "U04A22".toList, false⟩)
  , ("KZ".toList, ⟨20, "F03A13".toList, false⟩)
  , ("LB".toList, ⟨28, "F04A20".toList, false⟩)
  , ("LC".toList, ⟨32, "U04A24".toList, false⟩)
  , ("LI".toList, ⟨21, "F05A12".toList, true⟩)
  , ("LT".toList, ⟨20, "F05F11".toList, true⟩)
  , ("LU".toList, ⟨20, "F03A13".toList, true⟩)
  , ("LV".toList, ⟨21, "U04A13".toList, true⟩)
  , ("MC".toList, ⟨27, "F05F05A11F02".toList, true⟩)
  , ("MD".toList, ⟨24, "A20".toList, false⟩)
  , ("ME".toList, ⟨22, "F03F13F02".toList, false⟩)
  , ("MK".toList, ⟨19, "F03A10F02".toList, false⟩)
  , ("MR".toList, ⟨27, "F05F05F11F02".toList, false⟩)
  , ("MT".toList, ⟨31, "U04F05A18".toList, true⟩)
  , ("MU".toList, ⟨30, "U04F02F02F12F03U03".toList, false⟩)
  , ("NL".toList, ⟨18, "U04F10".toList, true⟩)
  , ("NO".toList, ⟨15, "F04F06F01".toList, true⟩)
  , ("PK".toList, ⟨24, "U04A16".toList, false⟩)
  , ("PL".toList, ⟨28, "F08F16".toList, true⟩)
  , ("PS".toList, ⟨29, "U04A21".toList, false⟩)
  , ("PT".toList, ⟨25, "F04F04F11F02".toList, true⟩)
  , ("QA".toList, ⟨29, "U04A21".toList, false⟩)
  , ("RO".toList, ⟨24, "U04A16".toList, true⟩)
  , ("RS".toList, ⟨22, "F03F13F02".toList, false⟩)
  , ("SA".toList, ⟨24, "F02A18".toList, false⟩)
  , ("SC".toList, ⟨31, "U04F02F02F16U03".toList, false⟩)
  , ("SE".toList, ⟨24, "F03F16F01".toList, true⟩)
  , ("SI".toList, ⟨19, "F05F08F02".toList, true⟩)
  , ("SK".toList, ⟨24, "F04F06F10".toList, true⟩)
  , ("SM".toList, ⟨27, "U01F05F05A12".toList, true⟩)
  , ("ST".toList, ⟨25, "F08F11F02".toList, false⟩)
  , ("TL".toList, ⟨23, "F03F14F02".toList, false⟩)
  , ("TN".toList, ⟨24, "F02F03F13F02".toList, false⟩)
  , ("TR".toList, ⟨26, "F05A01A16".toList, false⟩)
  , ("UA".toList, ⟨29, "F06A19".toList, false⟩)
  , ("VG".toList, ⟨24, "U04F16".toList, false⟩)
  , ("XK".toList, ⟨20, "F04F10F02".toList, false⟩)
  ]

/-- Go map lookup `countries[cc]`. -/
def lookupCountry (cc : List Char) : Option CountrySettings :=
  (List.find? (fun p => p.1 == cc) countries).map (fun p => p.2)

/-- One step of the letter-expansion loop of `validateCheckDigits`: a
character with code point in 65..90 (`A`..`Z`) is replaced by the decimal
rendering of `codepoint - 55` (so `A` ↦ `10`, …, `Z` ↦ `35`, via
`strconv.Itoa`); every other character is kept as is. -/
def expandChar (c : Char) : List Char :=
  if 64 < c.toNat && c.toNat < 91 then natDigits (c.toNat - 55) else [c]

/-- The whole letter-expansion loop (`for _, c := range iban`). -/
def expandAll : List Char → List Char
  | [] => []
  | c :: cs => expandChar c ++ expandAll cs

/-- The rearranged code of step (a): `i.code[4:] + i.code[:4]`. -/
def rearranged (code : List Char) : List Char :=
  code.drop 4 ++ code.take 4

/-- The `mods` string built by `validateCheckDigits`: letter expansion of the
rearranged code. -/
def modsOf (code : List Char) : List Char :=
  expandAll (rearranged code)

/-- `validateCheckDigits` of iban.go: rearrange, expand letters, parse as a
big integer (base 10) and compare the remainder mod 97 with 1. -/
def validateCheckDigits (i : IBAN) : Option String :=
  match setStringDec (modsOf i.code) with
  | none => some "IBAN check digits validation failed"
  | some v =>
    if v % 97 = 1 then none else some "IBAN has incorrect check digits"

/-- Tag characters recognised by the token-scanning regexp `[ABCFLUW]\d{2}`
of `validateBban`. -/
def isTag (c : Char) : Bool :=
  c = 'A' || c = 'B' || c = 'C' || c = 'F' || c = 'L' || c = 'U' || c = 'W'

/-- Model of `frx.FindAllString(format, -1)` for the pattern
`[ABCFLUW]\d{2}`: scan left to right; at each position either a 3-character
token `tag digit digit` matches (and scanning resumes after it), or the
current character is skipped.  Characters that begin no match — in
particular unknown tag characters — are silently dropped. -/
def findTokens : List Char → List (List Char)
  | c :: c1 :: c2 :: rest =>
    if isTag c && isDig c1 && isDig c2 then
      [c, c1, c2] :: findTokens rest
    else
      findTokens (c1 :: c2 :: rest)
  | _ => []

/-- The character class appended to the pattern for each tag by the `switch`
of `validateBban`.  The Go `switch` has no default case: a token whose tag
were outside `{A,B,C,F,L,U,W}` would contribute an empty class (making the
later pattern compilation fail); the scanner never produces such a token, so
the `false` catch-all below is unreachable from `findTokens` output. -/
def tagClass (t : Char) (c : Char) : Bool :=
  if t = 'F' then isDig c
  else if t = 'L' then isLow c
  else if t = 'U' then isUpp c
  else if t = 'A' then isDig c || isUpp c || isLow c
  else if t = 'B' then isDig c || isUpp c
  else if t = 'C' then isUpp c || isLow c
  else if t = 'W' then isDig c || isLow c
  else false

/-- The per-token loop of `validateBban`: for each scanned token, the class
of `ps[:1]` and the repeat factor `strconv.Atoi(ps[1:])`; an `Atoi` failure
(or a negative count, which would make the `{n}` repetition fail to compile)
aborts with `none`, modelling the error returns of the loop and of the final
`regexp.Compile`. -/
def compileTokens : List (List Char) → Option (List (Char × Nat))
  | [] => some []
  | ps :: rest =>
    match setStringDec (ps.drop 1), compileTokens rest with
    | some v, some l => if 0 ≤ v then some ((ps.headD ' ', v.toNat) :: l) else none
    | _, _ => none

/-- Matching of the compiled pattern `[class1]{n1}[class2]{n2}…` at the
start of `s`, characters beyond the pattern ignored: each segment consumes
exactly its repeat count of characters of its class. -/
def segsMatchHere : List (Char × Nat) → List Char → Bool
  | [], _ => true
  | (t, n) :: rest, s =>
    decide (n ≤ s.length) && (s.take n).all (tagClass t) && segsMatchHere rest (s.drop n)

/-- Go's `MatchString` is unanchored: the compiled pattern (which has no `^`
or `$`) matches the string iff it matches starting at some position. -/
def segsMatchSomewhere (segs : List (Char × Nat)) (s : List Char) : Bool :=
  (List.range (s.length + 1)).any (fun k => segsMatchHere segs (s.drop k))

/-- The matcher the spec describes for a compiled layout (stated from the
spec's words, for comparison with the code's unanchored matcher): the
candidate is exactly the in-order concatenation of `repeat` characters from
each segment's class — no extra characters before, between, or after. -/
def exactConcat : List (Char × Nat) → List Char → Bool
  | [], s => s.isEmpty
  | (t, n) :: rest, s =>
    decide (n ≤ s.length) && (s.take n).all (tagClass t) && exactConcat rest (s.drop n)

/-- The compiled segment list of a format descriptor (`compileTokens` is
proved below to succeed on every scanner output, so the `[]` default is never
used). -/
def compiledLayout (format : List Char) : List (Char × Nat) :=
  (compileTokens (findTokens format)).getD []

/-- Sum of the repeat counts of all tokens of a format descriptor. -/
def layoutRepeatSum (format : List Char) : Nat :=
  ((compiledLayout format).map (fun p => p.2)).sum

/-- `validateBban` of iban.go: scan the format into tokens, compile them
into a sequence of (class, repeat) segments, and test the bban against the
resulting pattern with an unanchored `MatchString`.  The Go error messages
in the compile branch carry the underlying error text after the prefix
`Failed to validate bban: `; the branch is proved unreachable below, so only
the prefix is kept. -/
def validateBban (i : IBAN) : Option String :=
  match compileTokens (findTokens i.countrySettings.Format) with
  | none => some "Failed to validate bban"
  | some segs =>
    if segsMatchSomewhere segs i.bban then none
    else some "bban part of IBAN is not formatted according to country specification"

/-- `Validate` of iban.go: run both re-checks, concatenate the messages of
whichever failed, and return `errors.New` of the concatenation — note that
Go's `errors.New` yields a non-nil error even for the empty string, so the
result is always a `some`. -/
def Validate (i : IBAN) : Option String :=
  some ((match validateBban i with | some m => m | none => "")
    ++ (match validateCheckDigits i with | some m => m | none => ""))

/-- `PrintCode` accessor of iban.go. -/
def PrintCode (i : IBAN) : List Char :=
  i.printCode

/-- ASCII upper-casing of one character, `strings.ToUpper` restricted to the
ASCII range.  (Unicode simple case mapping of non-ASCII characters is not
modelled; every character that survives the `[0-9A-Z]` gate is ASCII.) -/
def goToUpper (c : Char) : Char :=
  if 97 ≤ c.toNat && c.toNat ≤ 122 then Char.ofNat (c.toNat - 32) else c

/-- The normalization of `NewIBAN`:
`strings.ToUpper(strings.Replace(s, " ", "", -1))` — remove every space
character, then upper-case. -/
def normalize (s : List Char) : List Char :=
  (s.filter (fun c => c ≠ ' ')).map goToUpper

/-- Model of `r.FindString(s)` for the anchored pattern `^\D\D\d\d`: the
first four characters when they are non-digit, non-digit, digit, digit, and
the empty string (no match) otherwise. -/
def findHeader (s : List Char) : List Char :=
  match s with
  | c0 :: c1 :: c2 :: c3 :: _ =>
    if !isDig c0 && !isDig c1 && isDig c2 && isDig c3 then [c0, c1, c2, c3] else []
  | _ => []

/-- The print-code loop of `NewIBAN`: while more than 4 characters remain
(i.e. at least 5, matched below as `a :: b :: c :: d :: e :: rest`), emit a
chunk of 4 followed by a single space; the final chunk of length 1–4 is
emitted unterminated. -/
def genPrintCode : List Char → List Char
  | a :: b :: c :: d :: e :: rest => a :: b :: c :: d :: ' ' :: genPrintCode (e :: rest)
  | s => s

/-- Removing every space character — the operation the round-trip property
applies to the display format. -/
def removeSpaces (s : List Char) : List Char :=
  s.filter (fun c => c ≠ ' ')

/-- The body of `NewIBAN` after normalization, operating on the normalized
string: character-class gate, header extraction, country lookup, length
check, bban check, check-digit check, then construction.  Go assembles the
`iban` record field by field between the checks and computes `printCode`
last; since `validateBban` reads only `bban`/`countrySettings` and
`validateCheckDigits` reads only `code`, assembling the record up front is
observably identical. -/
def buildIBAN (s : List Char) : Option IBAN × Option String :=
  if s.all isUpperAlnum then
    if findHeader s = [] then
      (none, some "IBAN must start with country code (2 characters) and check digits (2 digits)")
    else
      match lookupCountry ((findHeader s).take 2) with
      | none => (none, some ("Unsupported country code " ++ String.mk ((findHeader s).take 2)))
      | some cs =>
        if s.length = cs.Length then
          match validateBban ⟨s, genPrintCode s, (findHeader s).take 2,
              ((findHeader s).drop 2).take 2, cs, s.drop 4⟩ with
          | some e => (none, some e)
          | none =>
            match validateCheckDigits ⟨s, genPrintCode s, (findHeader s).take 2,
                ((findHeader s).drop 2).take 2, cs, s.drop 4⟩ with
            | some e => (none, some e)
            | none => (some ⟨s, genPrintCode s, (findHeader s).take 2,
                ((findHeader s).drop 2).take 2, cs, s.drop 4⟩, none)
        else
          (none, some ("IBAN length " ++ String.mk (natDigits s.length)
            ++ " does not match length " ++ String.mk (natDigits cs.Length)
            ++ " specified for country code " ++ String.mk ((findHeader s).take 2)))
  else
    (none, some "IBAN can contain only alphanumeric characters")

/-- `NewIBAN` of iban.go. -/
def NewIBAN (s : List Char) : Option IBAN × Option String :=
  buildIBAN (normalize s)

/-! ### Arithmetic facts about characters and digit strings -/

/-- A character of the `[0-9A-Z]` gate is not a space, not `+`, not `-`. -/
lemma upperAlnum_facts {c : Char} (h : isUpperAlnum c = true) :
    c ≠ ' ' ∧ c ≠ '+' ∧ c ≠ '-' := by
  refine ⟨?_, ?_, ?_⟩ <;> rintro rfl <;> exact absurd h (by decide)

/-- A digit character is not a sign character. -/
lemma isDig_not_sign {c : Char} (h : isDig c = true) : c ≠ '+' ∧ c ≠ '-' := by
  constructor <;> rintro rfl <;> exact absurd h (by decide)

/-- `goToUpper` fixes every character of the `[0-9A-Z]` gate. -/
lemma goToUpper_of_upperAlnum {c : Char} (h : isUpperAlnum c = true) :
    goToUpper c = c := by
  simp only [isUpperAlnum, isDig, isUpp, Bool.or_eq_true, Bool.and_eq_true,
    decide_eq_true_eq] at h
  unfold goToUpper
  rw [if_neg]
  simp only [Bool.and_eq_true, decide_eq_true_eq, not_and]
  omega

/-- `normalize` fixes a string all of whose characters pass the gate. -/
lemma normalize_of_upperAlnum {l : List Char} (h : l.all isUpperAlnum = true) :
    normalize l = l := by
  rw [List.all_eq_true] at h
  unfold normalize
  rw [List.filter_eq_self.2 (fun a ha => decide_eq_true (upperAlnum_facts (h a ha)).1)]
  calc l.map goToUpper = l.map id := List.map_congr_left
        (fun a ha => goToUpper_of_upperAlnum (h a ha))
    _ = l := List.map_id l

/-- `parseDigits` succeeds on an all-digit string and folds up its value. -/
lemma parseDigits_all {s : List Char} (h : s.all isDig = true) :
    ∀ acc, parseDigits acc s = some (s.foldl (fun a c => 10 * a + (c.toNat - 48)) acc) := by
  induction s with
  | nil => intro acc; rfl
  | cons c cs ih =>
    intro acc
    rw [List.all_cons, Bool.and_eq_true] at h
    simp only [parseDigits, h.1, if_true, List.foldl_cons]
    exact ih h.2 _

/-- `digitsToNat` on a non-empty all-digit string returns its value. -/
lemma digitsToNat_all {s : List Char} (h : s.all isDig = true) (hne : s ≠ []) :
    digitsToNat s = some (digitStrVal s) := by
  match s, hne with
  | c :: cs, _ => exact parseDigits_all h 0

/-- `SetString(s, 10)` on a non-empty all-digit string returns its value. -/
lemma setStringDec_all {s : List Char} (h : s.all isDig = true) (hne : s ≠ []) :
    setStringDec s = some ((digitStrVal s : Nat) : Int) := by
  match s, hne with
  | c :: cs, _ =>
    have hc : isDig c = true := by
      rw [List.all_cons, Bool.and_eq_true] at h; exact h.1
    simp only [setStringDec]
    rw [if_neg (isDig_not_sign hc).1, if_neg (isDig_not_sign hc).2,
      digitsToNat_all h (by simp)]
    rfl

/-- The rendered decimal digit of `n < 10` is a digit character. -/
lemma isDig_ofNat_digit {n : Nat} (h : n < 10) :
    isDig (Char.ofNat (48 + n)) = true := by
  interval_cases n <;> decide

/-- Every character emitted by `natDigitsAux` is a digit. -/
lemma natDigitsAux_all_dig (fuel : Nat) : ∀ n, (natDigitsAux fuel n).all isDig = true := by
  induction fuel with
  | zero => intro n; rfl
  | succ f ih =>
    intro n
    unfold natDigitsAux
    split
    · simp only [List.all_cons, List.all_nil, Bool.and_true]
      exact isDig_ofNat_digit (by omega)
    · rw [List.all_append, ih (n / 10)]
      simp only [List.all_cons, List.all_nil, Bool.and_true, Bool.true_and]
      exact isDig_ofNat_digit (Nat.mod_lt n (by omega))

/-- Every character of `strconv.Itoa n` is a digit. -/
lemma natDigits_all_dig (n : Nat) : (natDigits n).all isDig = true :=
  natDigitsAux_all_dig (n + 1) n

/-- `strconv.Itoa` never renders the empty string. -/
lemma natDigits_ne_nil (n : Nat) : natDigits n ≠ [] := by
  unfold natDigits natDigitsAux
  split <;> simp

/-- Letter expansion of a gate character yields only digits. -/
lemma expandChar_all_dig {c : Char} (h : isUpperAlnum c = true) :
    (expandChar c).all isDig = true := by
  unfold expandChar
  split
  · exact natDigits_all_dig _
  · next hcond =>
    simp only [List.all_cons, List.all_nil, Bool.and_true]
    simp only [isUpperAlnum, Bool.or_eq_true] at h
    rcases h with h | h
    · exact h
    · exfalso
      simp only [isUpp, Bool.and_eq_true, decide_eq_true_eq] at h
      simp only [Bool.and_eq_true, decide_eq_true_eq, not_and] at hcond
      omega

/-- Letter expansion of any character is non-empty. -/
lemma expandChar_ne_nil (c : Char) : expandChar c ≠ [] := by
  unfold expandChar
  split
  · exact natDigits_ne_nil _
  · simp

/-- The expansion of a gate string is all digits. -/
lemma expandAll_all_dig {l : List Char} (h : l.all isUpperAlnum = true) :
    (expandAll l).all isDig = true := by
  induction l with
  | nil => rfl
  | cons c cs ih =>
    rw [List.all_cons, Bool.and_eq_true] at h
    unfold expandAll
    rw [List.all_append, expandChar_all_dig h.1, ih h.2]
    rfl

/-- The expansion of a non-empty string is non-empty. -/
lemma expandAll_ne_nil {l : List Char} (h : l ≠ []) : expandAll l ≠ [] := by
  match l, h with
  | c :: cs, _ =>
    unfold expandAll
    simp only [ne_eq, List.append_eq_nil, not_and]
    intro hc
    exact absurd hc (expandChar_ne_nil c)

/-- Under the gate hypotheses, the `mods` string of `validateCheckDigits` is
a non-empty all-digit string. -/
lemma mods_facts {code : List Char} (h4 : 4 ≤ code.length)
    (hc : code.all isUpperAlnum = true) :
    (modsOf code).all isDig = true ∧ modsOf code ≠ [] := by
  have hall : (rearranged code).all isUpperAlnum = true := by
    rw [List.all_eq_true] at hc ⊢
    intro c hm
    rw [rearranged, List.mem_append] at hm
    rcases hm with hm | hm
    · exact hc c (List.drop_subset _ _ hm)
    · exact hc c (List.take_subset _ _ hm)
  refine ⟨expandAll_all_dig hall, expandAll_ne_nil ?_⟩
  have : (rearranged code).length = code.length := by
    simp [rearranged]
    omega
  intro hnil
  rw [hnil] at this
  simp at this
  omega

/-- `validateCheckDigits` reduces, under the gate hypotheses, to the bare
mod-97 comparison on the value of the expanded numeral. -/
lemma validateCheckDigits_eq (i : IBAN) (h4 : 4 ≤ i.code.length)
    (hc : i.code.all isUpperAlnum = true) :
    validateCheckDigits i =
      if digitStrVal (modsOf i.code) % 97 = 1 then none
      else some "IBAN has incorrect check digits" := by
  obtain ⟨hall, hne⟩ := mods_facts h4 hc
  have hmod : (((digitStrVal (modsOf i.code) : Nat) : Int) % 97 = 1) ↔
      digitStrVal (modsOf i.code) % 97 = 1 := by omega
  unfold validateCheckDigits
  rw [setStringDec_all hall hne]
  show (if ((digitStrVal (modsOf i.code) : Nat) : Int) % 97 = 1 then (none : Option String)
    else some "IBAN has incorrect check digits") = _
  by_cases h : digitStrVal (modsOf i.code) % 97 = 1
  · rw [if_pos (hmod.2 h), if_pos h]
  · rw [if_neg (fun hh => h (hmod.1 hh)), if_neg h]

/-- Claim C2: for every code of length at least 4 containing only `[0-9A-Z]`
characters, `validateCheckDigits` succeeds iff the decimal numeral obtained
by moving the first 4 characters to the end and expanding every letter `L`
to the two decimal digits of `codepoint(L) - 55` is congruent to exactly 1
modulo 97; any other remainder is reported as the check-digit failure. -/
theorem validateCheckDigits_iff_mod97 (i : IBAN) (h4 : 4 ≤ i.code.length)
    (hc : i.code.all isUpperAlnum = true) :
    (validateCheckDigits i = none ↔ digitStrVal (modsOf i.code) % 97 = 1) ∧
    (digitStrVal (modsOf i.code) % 97 ≠ 1 →
      validateCheckDigits i = some "IBAN has incorrect check digits") := by
  rw [validateCheckDigits_eq i h4 hc]
  constructor
  · constructor
    · intro h
      by_contra hmod
      rw [if_neg hmod] at h
      exact Option.noConfusion h
    · intro h
      rw [if_pos h]
  · intro h
    rw [if_neg h]

/-- Witness for C2 at the concrete code `GB82WEST12345698765432` (a valid
IBAN, remainder 1). -/
theorem validateCheckDigits_iff_mod97_witness :
    (4 ≤ (IBAN.mk "GB82WEST12345698765432".toList [] [] [] ⟨0, [], false⟩ []).code.length ∧
     (IBAN.mk "GB82WEST12345698765432".toList [] [] [] ⟨0, [], false⟩ []).code.all isUpperAlnum = true) ∧
    ((validateCheckDigits (IBAN.mk "GB82WEST12345698765432".toList [] [] [] ⟨0, [], false⟩ []) = none ↔
      digitStrVal (modsOf (IBAN.mk "GB82WEST12345698765432".toList [] [] [] ⟨0, [], false⟩ []).code) % 97 = 1) ∧
     (digitStrVal (modsOf (IBAN.mk "GB82WEST12345698765432".toList [] [] [] ⟨0, [], false⟩ []).code) % 97 ≠ 1 →
      validateCheckDigits (IBAN.mk "GB82WEST12345698765432".toList [] [] [] ⟨0, [], false⟩ []) = some "IBAN has incorrect check digits")) :=
  ⟨⟨by decide, by decide⟩,
    validateCheckDigits_iff_mod97 (IBAN.mk "GB82WEST12345698765432".toList [] [] [] ⟨0, [], false⟩ [])
      (by decide) (by decide)⟩

/-- Claim C9: under the step-2 character gate the letter-expanded numeral
always parses, so the internal-arithmetic failure branch of
`validateCheckDigits` (message `IBAN check digits validation failed`) is
unreachable, and the function fails closed: it returns `none` or the
check-digit failure error, never the internal failure and never a crash
(totality of the model). -/
theorem validateCheckDigits_no_internal_failure (i : IBAN) (h4 : 4 ≤ i.code.length)
    (hc : i.code.all isUpperAlnum = true) :
    (setStringDec (modsOf i.code)).isSome = true ∧
    (validateCheckDigits i = none ∨
     validateCheckDigits i = some "IBAN has incorrect check digits") := by
  obtain ⟨hall, hne⟩ := mods_facts h4 hc
  refine ⟨by rw [setStringDec_all hall hne]; rfl, ?_⟩
  rw [validateCheckDigits_eq i h4 hc]
  by_cases h : digitStrVal (modsOf i.code) % 97 = 1
  · exact Or.inl (if_pos h)
  · exact Or.inr (if_neg h)

/-- Witness for C9 at the concrete code `GB82WEST12345698765433` (altered
last digit: the parse succeeds and the failure is the check-digit error,
exercising the fail-closed branch). -/
theorem validateCheckDigits_no_internal_failure_witness :
    (4 ≤ (IBAN.mk "GB82WEST12345698765433".toList [] [] [] ⟨0, [], false⟩ []).code.length ∧
     (IBAN.mk "GB82WEST12345698765433".toList [] [] [] ⟨0, [], false⟩ []).code.all isUpperAlnum = true) ∧
    ((setStringDec (modsOf (IBAN.mk "GB82WEST12345698765433".toList [] [] [] ⟨0, [], false⟩ []).code)).isSome = true ∧
     (validateCheckDigits (IBAN.mk "GB82WEST12345698765433".toList [] [] [] ⟨0, [], false⟩ []) = none ∨
      validateCheckDigits (IBAN.mk "GB82WEST12345698765433".toList [] [] [] ⟨0, [], false⟩ []) = some "IBAN has incorrect check digits")) :=
  ⟨⟨by decide, by decide⟩,
    validateCheckDigits_no_internal_failure
      (IBAN.mk "GB82WEST12345698765433".toList [] [] [] ⟨0, [], false⟩ [])
      (by decide) (by decide)⟩

/-! ### The bban structural matcher -/

/-- Every token produced by the scanner is a tag followed by two digits. -/
lemma findTokens_shape (s : List Char) :
    ∀ t ∈ findTokens s,
      ∃ a b c, t = [a, b, c] ∧ isTag a = true ∧ isDig b = true ∧ isDig c = true := by
  induction s using findTokens.induct with
  | case1 c c1 c2 rest hcond ih =>
    intro t ht
    simp only [findTokens, if_pos hcond] at ht
    rcases List.mem_cons.1 ht with rfl | ht
    · rw [Bool.and_eq_true, Bool.and_eq_true] at hcond
      exact ⟨c, c1, c2, rfl, hcond.1.1, hcond.1.2, hcond.2⟩
    · exact ih t ht
  | case2 c c1 c2 rest hcond ih =>
    intro t ht
    simp only [findTokens, if_neg hcond] at ht
    exact ih t ht
  | case3 t hnot =>
    intro u hu
    match t, hnot with
    | [], _ => simp [findTokens] at hu
    | [a], _ => simp [findTokens] at hu
    | [a, b], _ => simp [findTokens] at hu
    | a :: b :: c :: rest, hn => exact absurd rfl (hn a b c rest)

/-- Token compilation succeeds on every list of well-shaped tokens. -/
lemma compileTokens_shape (ts : List (List Char))
    (h : ∀ t ∈ ts,
      ∃ a b c, t = [a, b, c] ∧ isTag a = true ∧ isDig b = true ∧ isDig c = true) :
    ∃ l, compileTokens ts = some l := by
  induction ts with
  | nil => exact ⟨[], rfl⟩
  | cons t rest ih =>
    obtain ⟨l, hl⟩ := ih (fun u hu => h u (List.mem_cons_of_mem _ hu))
    obtain ⟨a, b, c, rfl, hta, hb, hc⟩ := h _ (List.mem_cons_self _ _)
    have hall : ([b, c].all isDig) = true := by
      simp only [List.all_cons, List.all_nil, Bool.and_true, hb, hc]
    have hset : setStringDec [b, c] = some ((digitStrVal [b, c] : Nat) : Int) :=
      setStringDec_all hall (by simp)
    refine ⟨(a, digitStrVal [b, c]) :: l, ?_⟩
    show (match setStringDec [b, c], compileTokens rest with
      | some v, some l => if 0 ≤ v then some (([a, b, c].headD ' ', v.toNat) :: l) else none
      | _, _ => none) = _
    rw [hset, hl]
    show (if (0 : Int) ≤ ((digitStrVal [b, c] : Nat) : Int)
      then some ((a, ((digitStrVal [b, c] : Nat) : Int).toNat) :: l) else none) = _
    rw [if_pos (Int.natCast_nonneg _)]
    simp

/-- `compileTokens` on scanner output always yields `compiledLayout`. -/
lemma compileTokens_findTokens (f : List Char) :
    compileTokens (findTokens f) = some (compiledLayout f) := by
  obtain ⟨l, hl⟩ := compileTokens_shape (findTokens f) (findTokens_shape f)
  rw [compiledLayout, hl]
  rfl

/-- `validateBban` in closed form: the compile step never fails, so the
result is decided by the unanchored match alone. -/
lemma validateBban_eq (i : IBAN) :
    validateBban i =
      if segsMatchSomewhere (compiledLayout i.countrySettings.Format) i.bban then none
      else some "bban part of IBAN is not formatted according to country specification" := by
  unfold validateBban
  rw [compileTokens_findTokens]

/-- A segment-list prefix match at the head of `s` is exactly an exact match
of some prefix of `s`. -/
lemma segsMatchHere_iff (segs : List (Char × Nat)) :
    ∀ s, segsMatchHere segs s = true ↔
      ∃ n, n ≤ s.length ∧ exactConcat segs (s.take n) = true := by
  induction segs with
  | nil =>
    intro s
    simp only [segsMatchHere, exactConcat]
    constructor
    · intro _
      exact ⟨0, Nat.zero_le _, by simp⟩
    · intro _
      trivial
  | cons seg rest ih =>
    obtain ⟨t, k⟩ := seg
    intro s
    simp only [segsMatchHere, exactConcat, Bool.and_eq_true, decide_eq_true_eq]
    constructor
    · rintro ⟨⟨hk, hall⟩, hrest⟩
      obtain ⟨m, hm, hex⟩ := (ih (s.drop k)).1 hrest
      rw [List.length_drop] at hm
      refine ⟨k + m, by omega, ⟨?_, ?_⟩, ?_⟩
      · rw [List.length_take]; omega
      · rw [List.take_take, min_eq_left (by omega)]
        exact hall
      · rw [← List.take_drop]
        exact hex
    · rintro ⟨n, hn, ⟨⟨hk, hall⟩, hex⟩⟩
      rw [List.length_take] at hk
      have hkn : k ≤ n ∧ k ≤ s.length := by omega
      refine ⟨⟨hkn.2, ?_⟩, ?_⟩
      · rw [List.take_take, min_eq_left hkn.1] at hall
        exact hall
      · refine (ih (s.drop k)).2 ⟨n - k, ?_, ?_⟩
        · rw [List.length_drop]; omega
        · rw [List.take_drop, Nat.add_sub_cancel' hkn.1]
          exact hex

/-- Claim C3 (amended): `validateBban` accepts a candidate iff the candidate
CONTAINS a contiguous substring that is exactly the in-order concatenation
of the layout segments — extra characters before and after that substring
are tolerated, because the compiled pattern is matched unanchored. -/
theorem validateBban_iff_contains_exact (i : IBAN) :
    validateBban i = none ↔
      ∃ j, j ≤ i.bban.length ∧ ∃ n, n ≤ (i.bban.drop j).length ∧
        exactConcat (compiledLayout i.countrySettings.Format)
          ((i.bban.drop j).take n) = true := by
  rw [validateBban_eq]
  constructor
  · intro h
    have hcond : segsMatchSomewhere (compiledLayout i.countrySettings.Format) i.bban = true := by
      by_contra hc
      rw [if_neg hc] at h
      exact Option.noConfusion h
    rw [segsMatchSomewhere, List.any_eq_true] at hcond
    obtain ⟨j, hj, hmatch⟩ := hcond
    rw [List.mem_range] at hj
    obtain ⟨n, hn, hex⟩ := (segsMatchHere_iff _ _).1 hmatch
    exact ⟨j, by omega, n, hn, hex⟩
  · rintro ⟨j, hj, n, hn, hex⟩
    have hcond : segsMatchSomewhere (compiledLayout i.countrySettings.Format) i.bban = true := by
      rw [segsMatchSomewhere, List.any_eq_true]
      exact ⟨j, List.mem_range.2 (by omega), (segsMatchHere_iff _ _).2 ⟨n, hn, hex⟩⟩
    rw [if_pos hcond]

/-- Counterexample to claim C3 as stated: with the GB layout `U04F06F08`
(4 upper letters, then 14 digits — total 18) the candidate
`WEST123456987654329` has 19 characters, so it is NOT exactly the
concatenation of the segments, yet `validateBban` accepts it (its 18-char
prefix matches and the trailing `9` is ignored by the unanchored match). -/
theorem validateBban_accepts_extra_chars :
    validateBban (IBAN.mk [] [] [] [] ⟨22, "U04F06F08".toList, true⟩
      "WEST123456987654329".toList) = none ∧
    exactConcat (compiledLayout ("U04F06F08".toList))
      ("WEST123456987654329".toList) = false := by decide

/-- Counterexample to claim C4 as stated: the descriptor `X04F02` contains
the tag character `X`, outside `{F,L,U,A,B,C,W}` — the claim requires a
compiler-level failure, but the scanner silently skips `X04` and the
candidate `12` matches the remaining `F02` token, so `validateBban` reports
no error at all. -/
theorem unknown_tag_layout_not_rejected :
    validateBban (IBAN.mk [] [] [] [] ⟨0, "X04F02".toList, false⟩
      "12".toList) = none := by decide

/-- Claim C4 (amended): unknown tag characters and malformed token
boundaries are silently skipped by the token scanner rather than reported;
the compiler-level failure branches (`Atoi` failure, pattern-compile
failure) are unreachable, so `validateBban` either succeeds or reports only
the structural-mismatch error. -/
theorem validateBban_no_compiler_failure (i : IBAN) :
    (compileTokens (findTokens i.countrySettings.Format)).isSome = true ∧
    (validateBban i = none ∨
     validateBban i =
       some "bban part of IBAN is not formatted according to country specification") := by
  refine ⟨by rw [compileTokens_findTokens]; rfl, ?_⟩
  rw [validateBban_eq]
  by_cases h : segsMatchSomewhere (compiledLayout i.countrySettings.Format) i.bban = true
  · exact Or.inl (if_pos h)
  · exact Or.inr (if_neg h)

/-! ### `Validate` and the country table -/

/-- Claim C1 fails on the code: on the value constructed by `NewIBAN` from
the valid IBAN `GB82WEST12345698765432` — both of whose re-checks pass, as
witnessed by `Validate` producing the empty concatenation — `Validate`
still returns a non-nil error (`errors.New` of the empty string), because
the function returns `errors.New(err)` unconditionally instead of returning
nil when `err` is empty.  The construction itself reports no error. -/
theorem validate_nonnil_on_valid :
    ((NewIBAN ("GB82WEST12345698765432".toList)).1.map Validate) = some (some "") ∧
    (NewIBAN ("GB82WEST12345698765432".toList)).2 = none := by decide

/-- Claim C6: for every entry of the static country table, the repeat counts
of the tokens of its `Format` descriptor sum to `Length - 4`. -/
theorem countries_layout_sum :
    (countries.all (fun p => layoutRepeatSum p.2.Format + 4 == p.2.Length)) = true := by
  decide

/-! ### Construction: `NewIBAN` -/

/-- When the header pattern `^\D\D\d\d` matches, the match is the first 4
characters and the string has at least 4 characters. -/
lemma findHeader_ne_nil {t : List Char} (h : findHeader t ≠ []) :
    findHeader t = t.take 4 ∧ 4 ≤ t.length := by
  match t with
  | [] => exact absurd rfl h
  | [a] => exact absurd rfl h
  | [a, b] => exact absurd rfl h
  | [a, b, c] => exact absurd rfl h
  | a :: b :: c :: d :: rest =>
    by_cases hcond : (!isDig a && !isDig b && isDig c && isDig d) = true
    · constructor
      · show (if !isDig a && !isDig b && isDig c && isDig d
          then [a, b, c, d] else []) = _
        rw [if_pos hcond]
        rfl
      · simp only [List.length_cons]
        omega
    · exfalso
      apply h
      show (if !isDig a && !isDig b && isDig c && isDig d
        then [a, b, c, d] else []) = []
      rw [if_neg hcond]

/-- `buildIBAN` returns either a nil pointer with a non-nil error or a
non-nil pointer with a nil error — one shape per return site. -/
lemma buildIBAN_shape (t : List Char) :
    (∃ e, buildIBAN t = (none, some e)) ∨ (∃ i, buildIBAN t = (some i, none)) := by
  unfold buildIBAN
  split
  · split
    · exact Or.inl ⟨_, rfl⟩
    · split
      · exact Or.inl ⟨_, rfl⟩
      · split
        · split
          · exact Or.inl ⟨_, rfl⟩
          · split
            · exact Or.inl ⟨_, rfl⟩
            · exact Or.inr ⟨_, rfl⟩
        · exact Or.inl ⟨_, rfl⟩
  · exact Or.inl ⟨_, rfl⟩

/-- A successful `buildIBAN` pins down every field of the result and records
that every intermediate check passed. -/
lemma buildIBAN_ok {t : List Char} {i : IBAN} (h : buildIBAN t = (some i, none)) :
    i.code = t ∧ t.all isUpperAlnum = true ∧ findHeader t ≠ [] ∧
    i.printCode = genPrintCode t ∧
    i.countryCode = (findHeader t).take 2 ∧
    i.checkDigits = ((findHeader t).drop 2).take 2 ∧
    lookupCountry ((findHeader t).take 2) = some i.countrySettings ∧
    t.length = i.countrySettings.Length ∧
    i.bban = t.drop 4 ∧
    validateBban i = none ∧ validateCheckDigits i = none := by
  unfold buildIBAN at h
  split at h
  case isFalse => exact absurd h (by simp)
  case isTrue hgate =>
    split at h
    case isTrue => exact absurd h (by simp)
    case isFalse hhd =>
      split at h
      case h_1 => exact absurd h (by simp)
      case h_2 cs hcs =>
        split at h
        case isFalse => exact absurd h (by simp)
        case isTrue hlen =>
          split at h
          case h_1 e hbb => exact absurd h (by simp)
          case h_2 hbb =>
            split at h
            case h_1 e hcd => exact absurd h (by simp)
            case h_2 hcd =>
              rw [Prod.mk.injEq, Option.some.injEq] at h
              obtain ⟨rfl, -⟩ := h
              exact ⟨rfl, hgate, hhd, rfl, rfl, rfl, hcs, hlen, rfl, hbb, hcd⟩

/-- Removing spaces undoes the space insertion of the print-code loop. -/
lemma removeSpaces_genPrintCode (s : List Char) :
    removeSpaces (genPrintCode s) = removeSpaces s := by
  induction s using genPrintCode.induct with
  | case1 a b c d e rest ih =>
    simp only [genPrintCode, removeSpaces, List.filter_cons] at ih ⊢
    simp only [ih]
    simp
  | case2 s hnot =>
    match s, hnot with
    | [], _ => rfl
    | [a], _ => rfl
    | [a, b], _ => rfl
    | [a, b, c], _ => rfl
    | [a, b, c, d], _ => rfl
    | a :: b :: c :: d :: e :: rest, hn => exact absurd rfl (hn a b c d e rest)

/-- Removing spaces fixes a string of gate characters. -/
lemma removeSpaces_of_upperAlnum {l : List Char} (h : l.all isUpperAlnum = true) :
    removeSpaces l = l := by
  rw [List.all_eq_true] at h
  exact List.filter_eq_self.2 (fun a ha => decide_eq_true (upperAlnum_facts (h a ha)).1)

/-- Claim C5: `NewIBAN` is total (the model is a total function — no panic)
and all-or-nothing: for every input it returns either a nil pointer with a
non-nil error, or a non-nil pointer with a nil error whose value is fully
constructed — every field is populated from the normalized input and both
validation checks hold of it. -/
theorem newIBAN_all_or_nothing (s : List Char) :
    (∃ e, NewIBAN s = (none, some e)) ∨
    (∃ i, NewIBAN s = (some i, none) ∧
      i.code = normalize s ∧ i.code.all isUpperAlnum = true ∧
      i.countryCode = i.code.take 2 ∧
      i.checkDigits = (i.code.drop 2).take 2 ∧
      lookupCountry i.countryCode = some i.countrySettings ∧
      i.code.length = i.countrySettings.Length ∧
      i.bban = i.code.drop 4 ∧
      i.printCode = genPrintCode i.code ∧
      validateBban i = none ∧ validateCheckDigits i = none) := by
  rcases buildIBAN_shape (normalize s) with ⟨e, he⟩ | ⟨i, hi⟩
  · exact Or.inl ⟨e, he⟩
  · right
    obtain ⟨hcode, hgate, hhd, hpc, hcc, hcd, hlk, hlen, hbb, hvb, hvc⟩ := buildIBAN_ok hi
    obtain ⟨hh4, hlen4⟩ := findHeader_ne_nil hhd
    refine ⟨i, hi, hcode, ?_, ?_, ?_, ?_, ?_, ?_, ?_, hvb, hvc⟩
    · rw [hcode]; exact hgate
    · rw [hcode, hcc, hh4, List.take_take]
      norm_num
    · rw [hcode, hcd, hh4]
      have h24 : List.drop 2 (List.take 4 (normalize s)) =
          List.take 2 (List.drop 2 (normalize s)) := by
        have ht := List.take_drop 2 2 (normalize s)
        simpa using ht.symm
      rw [h24, List.take_take]
      norm_num
    · rw [hcc]; exact hlk
    · rw [hcode]; exact hlen
    · rw [hcode]; exact hbb
    · rw [hcode]; exact hpc

/-- Claim C7: for every input on which `NewIBAN` succeeds, removing the
space characters from the display-formatted string `PrintCode()` reproduces
the normalized code exactly. -/
theorem printCode_roundtrip (s : List Char) (i : IBAN)
    (h : NewIBAN s = (some i, none)) :
    removeSpaces (PrintCode i) = i.code := by
  obtain ⟨hcode, hgate, _, hpc, _⟩ := buildIBAN_ok h
  rw [PrintCode, hpc, removeSpaces_genPrintCode, removeSpaces_of_upperAlnum hgate, hcode]

/-- Witness for C7 at the concrete input `DE89 3704 0044 0532 0130 00`. -/
theorem printCode_roundtrip_witness :
    (∃ i, NewIBAN ("DE89 3704 0044 0532 0130 00".toList) = (some i, none)) ∧
    removeSpaces (PrintCode ((NewIBAN ("DE89 3704 0044 0532 0130 00".toList)).1.getD
      (IBAN.mk [] [] [] [] ⟨0, [], false⟩ []))) =
      ((NewIBAN ("DE89 3704 0044 0532 0130 00".toList)).1.getD
        (IBAN.mk [] [] [] [] ⟨0, [], false⟩ [])).code :=
  ⟨⟨(NewIBAN ("DE89 3704 0044 0532 0130 00".toList)).1.getD
      (IBAN.mk [] [] [] [] ⟨0, [], false⟩ []), by decide⟩,
    printCode_roundtrip ("DE89 3704 0044 0532 0130 00".toList)
      ((NewIBAN ("DE89 3704 0044 0532 0130 00".toList)).1.getD
        (IBAN.mk [] [] [] [] ⟨0, [], false⟩ [])) (by decide)⟩

/-- Claim C8: parsing is idempotent — when `NewIBAN x` succeeds with value
`i`, `NewIBAN i.code` (on the normalized code) succeeds and returns the very
same value, every field included. -/
theorem newIBAN_idempotent (s : List Char) (i : IBAN)
    (h : NewIBAN s = (some i, none)) :
    NewIBAN i.code = (some i, none) := by
  obtain ⟨hcode, hgate, _⟩ := buildIBAN_ok h
  show buildIBAN (normalize i.code) = (some i, none)
  rw [hcode, normalize_of_upperAlnum hgate]
  exact h

/-- Witness for C8 at the concrete input `gb82 west 1234 5698 7654 32`
(lower case and spaces exercise the normalization). -/
theorem newIBAN_idempotent_witness :
    (∃ i, NewIBAN ("gb82 west 1234 5698 7654 32".toList) = (some i, none)) ∧
    NewIBAN (((NewIBAN ("gb82 west 1234 5698 7654 32".toList)).1.getD
        (IBAN.mk [] [] [] [] ⟨0, [], false⟩ [])).code) =
      (some ((NewIBAN ("gb82 west 1234 5698 7654 32".toList)).1.getD
        (IBAN.mk [] [] [] [] ⟨0, [], false⟩ [])), none) :=
  ⟨⟨(NewIBAN ("gb82 west 1234 5698 7654 32".toList)).1.getD
      (IBAN.mk [] [] [] [] ⟨0, [], false⟩ []), by decide⟩,
    newIBAN_idempotent ("gb82 west 1234 5698 7654 32".toList)
      ((NewIBAN ("gb82 west 1234 5698 7654 32".toList)).1.getD
        (IBAN.mk [] [] [] [] ⟨0, [], false⟩ [])) (by decide)⟩

/-- Claim C10: on the empty input and on inputs consisting only of spaces,
the normalized string is empty, it passes the `^[0-9A-Z]*$` character gate
(the starred pattern accepts the empty string), and `NewIBAN` fails at
header extraction with the must-start-with error, returning a nil pointer
(and no panic — the model is total). -/
theorem newIBAN_spaces_only (s : List Char) (h : ∀ c ∈ s, c = ' ') :
    normalize s = [] ∧ (normalize s).all isUpperAlnum = true ∧
    NewIBAN s = (none,
      some "IBAN must start with country code (2 characters) and check digits (2 digits)") := by
  have hf : s.filter (fun c => decide (c ≠ ' ')) = [] :=
    List.filter_eq_nil_iff.2 (fun a ha => by rw [h a ha]; simp)
  have hn : normalize s = [] := by
    unfold normalize
    rw [hf]
    rfl
  refine ⟨hn, by rw [hn]; rfl, ?_⟩
  show buildIBAN (normalize s) = _
  rw [hn]
  decide

/-- Witness for C10 at the concrete input of three spaces. -/
theorem newIBAN_spaces_only_witness :
    normalize ("   ".toList) = [] ∧ (normalize ("   ".toList)).all isUpperAlnum = true ∧
    NewIBAN ("   ".toList) = (none,
      some "IBAN must start with country code (2 characters) and check digits (2 digits)") :=
  newIBAN_spaces_only ("   ".toList) (by decide)

end Iban
